import Mathlib

/-!
Verification of the minio-presign-service core logic (main.go and its
alternate variant). Go strings are modelled as `List Char`; the Go standard
library string helpers used by the service (strings.TrimSpace,
strings.HasPrefix/TrimPrefix/TrimSuffix, strings.ToLower, strings.Split on a
newline) are embedded below over that representation, restricted to ASCII
(the service only ever compares ASCII literals, so the Unicode extras of the
Go versions are irrelevant here).
-/

/-- The characters Go's strings.TrimSpace removes at either end
(ASCII subset of unicode.IsSpace). -/
def isSpaceChar (c : Char) : Bool :=
  c = (' ') || c.val = 9 || c.val = 10 || c.val = 11 || c.val = 12 || c.val = 13

/-- View a Lean string literal as the Go string it denotes. -/
def str (s : String) : List Char := s.data

/-- ASCII lowercase of one character (strings.ToLower restricted to ASCII). -/
def asciiLower (c : Char) : Char :=
  if ('A') ≤ c ∧ c ≤ ('Z') then Char.ofNat (c.toNat + 32) else c

/-- strings.ToLower restricted to ASCII. -/
def lowerStr (s : List Char) : List Char := s.map asciiLower

/-- strings.TrimSpace: drop whitespace from both ends. -/
def trimSpace (s : List Char) : List Char :=
  ((s.dropWhile isSpaceChar).reverse.dropWhile isSpaceChar).reverse

/-- strings.TrimPrefix: remove one copy of a leading pattern, when present. -/
def trimLeading (p s : List Char) : List Char :=
  if p.isPrefixOf s then s.drop p.length else s

/-- strings.TrimSuffix: remove one copy of a trailing pattern, when present. -/
def trimTrailing (p s : List Char) : List Char :=
  if p.isSuffixOf s then s.take (s.length - p.length) else s

/-- True when the list starts with the given character. -/
def headIs (c : Char) : List Char → Bool
  | [] => false
  | x :: _ => x == c

/-- True when the list ends with the given character. -/
def lastIs (c : Char) (s : List Char) : Bool := headIs c s.reverse

/-- True when `pat` occurs as a contiguous substring of `s`. -/
def containsSub (pat : List Char) : List Char → Bool
  | [] => pat.isPrefixOf []
  | c :: cs => pat.isPrefixOf (c :: cs) || containsSub pat cs

/-- strings.Split on a single newline character: Go returns the pieces
between newlines, including empty ones (n separators give n+1 pieces). -/
def splitLines : List Char → List (List Char)
  | [] => [[]]
  | c :: cs =>
    if c = Char.ofNat 10 then [] :: splitLines cs
    else
      match splitLines cs with
      | [] => [[c]]
      | h :: t => (c :: h) :: t

/-- Decimal rendering of a natural number, as fmt.Sprintf %d prints a
non-negative int. -/
def decimal (n : Nat) : List Char := (Nat.repr n).data

/-! ## Auth gate (withAuth, main.go lines 154-192) -/

/-- Outcome of the withAuth middleware for one request: either the wrapped
handler runs (`proceed` — next.ServeHTTP is invoked), or the middleware
itself writes a JSON error response with the given status and error message
and the wrapped handler never runs. -/
inductive GateResult where
  | proceed : GateResult
  | respond (status : Nat) (body : List Char) : GateResult

/-- withAuth from main.go: the /health path bypasses the gate; an empty
(trimmed) API_TOKEN yields a 500 misconfiguration response; otherwise the
request proceeds exactly when the trimmed x-api-token equals the token and is
non-empty, or the trimmed Authorization value lowercases to something
starting with the 7 bytes of a bearer scheme and the rest of it, trimmed,
equals the token. -/
def withAuth (apiTokenEnv path xApiToken authHeader : List Char) : GateResult :=
  if path = str ("/health") then GateResult.proceed
  else if trimSpace apiTokenEnv = [] then
    GateResult.respond 500 (str ("API_TOKEN is not set on server"))
  else if (trimSpace xApiToken ≠ [] ∧ trimSpace xApiToken = trimSpace apiTokenEnv)
      ∨ ((str ("bearer ")).isPrefixOf (lowerStr (trimSpace authHeader)) = true
          ∧ trimSpace ((trimSpace authHeader).drop 7) = trimSpace apiTokenEnv) then
    GateResult.proceed
  else GateResult.respond 401 (str ("unauthorized"))

/-! ## Expiration formatter (buildExpire, main.go lines 208-228) and its
caller's resolution step (presignHandler lines 103-107) -/

/-- buildExpire from main.go: empty result for any negative component or for
all-zero components, otherwise the non-zero components rendered as
`<n>d`, `<n>h`, `<n>m`, concatenated in that order. -/
def buildExpire (days hours minutes : Int) : List Char :=
  if days < 0 ∨ hours < 0 ∨ minutes < 0 then []
  else if days = 0 ∧ hours = 0 ∧ minutes = 0 then []
  else (if days > 0 then decimal days.toNat ++ str ("d") else [])
    ++ ((if hours > 0 then decimal hours.toNat ++ str ("h") else [])
    ++ (if minutes > 0 then decimal minutes.toNat ++ str ("m") else []))

/-- The caller's step in presignHandler: substitute the fixed default when
buildExpire returns its empty sentinel. -/
def resolveExpire (days hours minutes : Int) : List Char :=
  if buildExpire days hours minutes = [] then str ("15m")
  else buildExpire days hours minutes

/-- Modelled from the spec: "Output format concatenates non-zero components
as `<n>d`, `<n>h`, `<n>m` in that fixed order with no separators" — each
component included exactly when its magnitude is nonzero. -/
def expireSpecFormat (days hours minutes : Int) : List Char :=
  (if days ≠ 0 then decimal days.toNat ++ str ("d") else [])
    ++ ((if hours ≠ 0 then decimal hours.toNat ++ str ("h") else [])
    ++ (if minutes ≠ 0 then decimal minutes.toNat ++ str ("m") else []))

/-! ## Object path builder (joinObjectPath, main.go lines 230-243) -/

/-- The local `clean` closure of joinObjectPath: whitespace-trim, then strip
exactly one leading and one trailing separator. -/
def cleanSeg (s : List Char) : List Char :=
  trimTrailing (str ("/")) (trimLeading (str ("/")) (trimSpace s))

/-- joinObjectPath from main.go. -/
def joinObjectPath (folder key : List Char) : List Char :=
  if cleanSeg folder = [] then cleanSeg key
  else cleanSeg folder ++ (str ("/") ++ cleanSeg key)

/-- The signing target built by presignHandler line 101:
fmt.Sprintf("%s/%s/%s", alias, bucket, objectPath). -/
def signingTarget (aliasName bucket objectPath : List Char) : List Char :=
  aliasName ++ (str ("/") ++ (bucket ++ (str ("/") ++ objectPath)))

/-! ## Line-anchored output parsing (extractShareURL, main.go lines 246-258) -/

/-- The fixed marker prefix of the line carrying the presigned URL. -/
def shareMarker : List Char := str ("Share:")

/-- The for-loop body of extractShareURL, over the already split lines:
the first line whose trimmed form starts with the marker decides the result
(error when its remainder is empty), and running out of lines is the
no-Share-line error. -/
def scanShare : List (List Char) → Except (List Char) (List Char)
  | [] => Except.error (str ("could not find Share: line in mc output"))
  | l :: rest =>
    if shareMarker.isPrefixOf (trimSpace l) then
      if trimSpace (trimLeading shareMarker (trimSpace l)) = [] then
        Except.error (str ("Share line present but empty"))
      else Except.ok (trimSpace (trimLeading shareMarker (trimSpace l)))
    else scanShare rest

/-- extractShareURL from main.go: split the tool output on newlines and scan. -/
def extractShareURL (out : List Char) : Except (List Char) (List Char) :=
  scanShare (splitLines out)

/-! ## Pattern extraction (extractFirstURL, alternate variant lines 226-234).
Models the Go regexp `https?://[^\s'"]+` with RE2 leftmost semantics: the
match starts at the earliest position where the pattern matches, and the
character-class run is taken greedily. -/

/-- RE2's Perl class \s: tab, newline, form feed, carriage return, space. -/
def isRegexSpace (c : Char) : Bool :=
  c = (' ') || c.val = 9 || c.val = 10 || c.val = 12 || c.val = 13

/-- A character admitted by the class `[^\s'"]` (39 and 34 are the
apostrophe and double-quote code points). -/
def isURLTokenChar (c : Char) : Bool :=
  !(isRegexSpace c) && c.val ≠ 39 && c.val ≠ 34

/-- Try to match `https?://[^\s'"]+` at the start of `s`. -/
def matchURLAt (s : List Char) : Option (List Char) :=
  if (str ("https://")).isPrefixOf s then
    if (s.drop 8).takeWhile isURLTokenChar = [] then none
    else some (str ("https://") ++ (s.drop 8).takeWhile isURLTokenChar)
  else if (str ("http://")).isPrefixOf s then
    if (s.drop 7).takeWhile isURLTokenChar = [] then none
    else some (str ("http://") ++ (s.drop 7).takeWhile isURLTokenChar)
  else none

/-- regexp.FindString: the leftmost match of the URL pattern, if any. -/
def findFirstURL : List Char → Option (List Char)
  | [] => none
  | c :: cs =>
    match matchURLAt (c :: cs) with
    | some m => some m
    | none => findFirstURL cs

/-- extractFirstURL from the alternate variant. -/
def extractFirstURL (s : List Char) : Except (List Char) (List Char) :=
  match findFirstURL s with
  | some m => Except.ok m
  | none => Except.error (str ("no URL found"))

/-! ## External tool invocation outcome (presignHandler, main.go lines
110-129 and the identical logic of the alternate variant) -/

/-- The observable result of one external `mc` invocation: whether the
per-request deadline fired, the process-level error message when the exit
status was non-zero (`none` means exit status zero), and the captured
combined output. -/
structure ToolRun where
  deadlineExceeded : Bool
  exitErr : Option (List Char)
  output : List Char

/-- What the handler does next after the invocation: either write an error
response now, or hand the captured output to URL extraction. -/
inductive HandlerStep where
  | respond (status : Nat) (body : List Char) : HandlerStep
  | extract (out : List Char) : HandlerStep

/-- The outcome classification of presignHandler lines 117-129: deadline
exceeded wins and maps to 504 with a fixed message; otherwise a non-zero
exit maps to 400 carrying the trimmed output, or the process error message
when the trimmed output is empty; otherwise extraction proceeds. -/
def classifyToolRun (run : ToolRun) : HandlerStep :=
  if run.deadlineExceeded then
    HandlerStep.respond 504 (str ("mc command timed out"))
  else
    match run.exitErr with
    | some e =>
      HandlerStep.respond 400
        (if trimSpace run.output = [] then e else trimSpace run.output)
    | none => HandlerStep.extract run.output

/-- The post-extraction step of main.go lines 131-139: a parse failure
becomes a 400 whose body appends the trimmed tool output to a fixed
message. -/
def lineVariantParse (out : List Char) : Except (Nat × List Char) (List Char) :=
  match extractShareURL out with
  | Except.ok u => Except.ok u
  | Except.error _ =>
    Except.error (400, str ("could not parse Share URL. mc output: ") ++ trimSpace out)

/-- The post-extraction step of the alternate variant lines 121-125: a parse
failure becomes a 500 with a fixed message. -/
def patternVariantParse (out : List Char) : Except (Nat × List Char) (List Char) :=
  match extractFirstURL out with
  | Except.ok u => Except.ok u
  | Except.error _ =>
    Except.error (500, str ("could not extract URL from mc output"))

/-! ## URL rewriting (rewritePublicBase, main.go lines 260-279).
The service delegates URL structure to Go's net/url. The model below embeds
url.Parse and URL.String for the hierarchical URL shapes the service
handles — `scheme://host/path?query#fragment` with optional parts — plus the
opaque (`scheme:rest`) and host-less forms, without userinfo splitting,
percent-escaping, or host validation, none of which the claims exercise.
Parse failure is modelled on its two main triggers: an ASCII control
character anywhere, or a colon ending the first segment of a scheme-less
URL (Go: "missing protocol scheme" / "first path segment in URL cannot
contain colon"). -/

/-- A parsed URL: the fields of net/url.URL the service's rewrite touches. -/
structure GoURL where
  scheme : List Char
  opaquePart : List Char
  host : List Char
  path : List Char
  rawQuery : List Char
  fragment : List Char
  omitHost : Bool

/-- An ASCII control character (net/url rejects these). -/
def isCtlChar (c : Char) : Bool := c.val < 32 || c.val = 127

/-- A character allowed in a scheme after the first letter. -/
def isSchemeChar (c : Char) : Bool :=
  (('a') ≤ c && c ≤ ('z')) || (('A') ≤ c && c ≤ ('Z'))
    || (('0') ≤ c && c ≤ ('9')) || c = ('+') || c = ('-') || c = ('.')

/-- True when the list starts with an ASCII letter. -/
def headIsAlpha : List Char → Bool
  | [] => false
  | c :: _ => (('a') ≤ c && c ≤ ('z')) || (('A') ≤ c && c ≤ ('Z'))

/-- Split at the first occurrence of a character: the part before it and the
part after it (the whole list and an empty remainder when absent). -/
def cutFirst (c : Char) : List Char → (List Char × List Char)
  | [] => ([], [])
  | x :: xs =>
    if x = c then ([], xs)
    else ((x :: (cutFirst c xs).1), (cutFirst c xs).2)

/-- The part of url.Parse after scheme/query/fragment splitting: an
authority (`//host`) prefix yields host and path; a scheme followed by a
non-slash rest is opaque; otherwise the rest is the path (with Go's
OmitHost flag recorded when a scheme is present). -/
def parseAfterScheme (scheme rest query frag : List Char) : Option GoURL :=
  if (str ("//")).isPrefixOf rest then
    some { scheme := scheme, opaquePart := [],
           host := (rest.drop 2).takeWhile (fun c => c ≠ ('/')),
           path := (rest.drop 2).dropWhile (fun c => c ≠ ('/')),
           rawQuery := query, fragment := frag, omitHost := false }
  else if scheme ≠ [] ∧ headIs ('/') rest = false ∧ rest ≠ [] then
    some { scheme := scheme, opaquePart := rest, host := [], path := [],
           rawQuery := query, fragment := frag, omitHost := false }
  else
    some { scheme := scheme, opaquePart := [], host := [], path := rest,
           rawQuery := query, fragment := frag, omitHost := scheme ≠ [] }

/-- url.Parse on the modelled subset. -/
def parseURL (s : List Char) : Option GoURL :=
  if s.any isCtlChar then none
  else
    if headIs (':') (cutFirst ('?') (cutFirst ('#') s).1).1 then none
    else
      if (cutFirst ('?') (cutFirst ('#') s).1).1.takeWhile isSchemeChar ≠ []
          ∧ headIsAlpha (cutFirst ('?') (cutFirst ('#') s).1).1 = true
          ∧ headIs (':')
              ((cutFirst ('?') (cutFirst ('#') s).1).1.drop
                ((cutFirst ('?') (cutFirst ('#') s).1).1.takeWhile isSchemeChar).length)
              = true then
        parseAfterScheme
          (lowerStr ((cutFirst ('?') (cutFirst ('#') s).1).1.takeWhile isSchemeChar))
          ((cutFirst ('?') (cutFirst ('#') s).1).1.drop
            (((cutFirst ('?') (cutFirst ('#') s).1).1.takeWhile isSchemeChar).length + 1))
          (cutFirst ('?') (cutFirst ('#') s).1).2
          (cutFirst ('#') s).2
      else
        if ((cutFirst ('?') (cutFirst ('#') s).1).1.takeWhile
              (fun c => c ≠ ('/'))).any (fun c => c = (':')) then none
        else
          parseAfterScheme [] (cutFirst ('?') (cutFirst ('#') s).1).1
            (cutFirst ('?') (cutFirst ('#') s).1).2 (cutFirst ('#') s).2

/-- The `//host` section of URL.String for non-opaque URLs: written when a
scheme or host is present, unless Go's OmitHost applies with an empty host;
the `//` itself is skipped when both host and path are empty. -/
def hostSection (scheme host path : List Char) (omitHost : Bool) : List Char :=
  if scheme = [] ∧ host = [] then []
  else if omitHost = true ∧ host = [] then []
  else (if host = [] ∧ path = [] then [] else str ("//")) ++ host

/-- URL.String's extra slash between a non-empty host and a relative path. -/
def slashFix (host path : List Char) : List Char :=
  if path ≠ [] ∧ headIs ('/') path = false ∧ host ≠ [] then str ("/") else []

/-- URL.String on the modelled subset. -/
def urlString : GoURL → List Char
  | ⟨scheme, opaquePart, host, path, rawQuery, fragment, omitHost⟩ =>
    (if scheme = [] then [] else scheme ++ str (":"))
      ++ ((if opaquePart = [] then
            hostSection scheme host path omitHost ++ (slashFix host path ++ path)
          else opaquePart)
      ++ ((if rawQuery = [] then [] else str ("?") ++ rawQuery)
      ++ (if fragment = [] then [] else str ("#") ++ fragment)))

/-- rewritePublicBase from main.go: no-op on an empty configured base or on
any parse failure; otherwise swap only scheme and host onto the parsed URL
and re-serialize it. -/
def rewritePublicBase (publicBaseEnv u : List Char) : List Char :=
  if trimSpace publicBaseEnv = [] then u
  else
    match parseURL u with
    | none => u
    | some parsed =>
      match parseURL (trimSpace publicBaseEnv) with
      | none => u
      | some pub => urlString { parsed with scheme := pub.scheme, host := pub.host }

/-! ## Claim theorems -/

/-- C1: For every non-health request, if the configured shared secret
(API_TOKEN after whitespace trimming) is empty, the auth gate responds with
HTTP 500 and the misconfiguration error, regardless of the credential
presented in either header; the wrapped handler is never invoked (the
result is a `respond`, not `proceed`). -/
theorem auth_empty_secret_denies (env path h1 h2 : List Char)
    (hp : path ≠ str ("/health")) (ht : trimSpace env = []) :
    withAuth env path h1 h2
      = GateResult.respond 500 (str ("API_TOKEN is not set on server")) := by
  unfold withAuth
  rw [if_neg hp, if_pos ht]

/-- Witness for C1 at a concrete request. -/
theorem auth_empty_secret_denies_witness :
    withAuth [] (str ("/presign")) (str ("t")) (str ("Bearer t"))
      = GateResult.respond 500 (str ("API_TOKEN is not set on server")) :=
  auth_empty_secret_denies [] (str ("/presign")) (str ("t")) (str ("Bearer t"))
    (by decide) (by decide)

/-- C2: For every non-health request with a non-empty configured secret, the
gate lets the request proceed iff the whitespace-trimmed x-api-token equals
the secret, or the (trimmed) Authorization value begins with the bearer
scheme prefix matched case-insensitively and its token portion
(whitespace-trimmed) equals the secret case-sensitively; every other
presentation gets the 401 response. -/
theorem auth_allow_iff (env path h1 h2 : List Char)
    (hp : path ≠ str ("/health")) (ht : trimSpace env ≠ []) :
    (withAuth env path h1 h2 = GateResult.proceed
      ↔ (trimSpace h1 = trimSpace env
          ∨ ((str ("bearer ")).isPrefixOf (lowerStr (trimSpace h2)) = true
              ∧ trimSpace ((trimSpace h2).drop 7) = trimSpace env)))
    ∧ (withAuth env path h1 h2 ≠ GateResult.proceed
        → withAuth env path h1 h2
            = GateResult.respond 401 (str ("unauthorized"))) := by
  unfold withAuth
  rw [if_neg hp, if_neg ht]
  by_cases hc :
    (trimSpace h1 ≠ [] ∧ trimSpace h1 = trimSpace env)
      ∨ ((str ("bearer ")).isPrefixOf (lowerStr (trimSpace h2)) = true
          ∧ trimSpace ((trimSpace h2).drop 7) = trimSpace env)
  · rw [if_pos hc]
    refine ⟨⟨fun _ => ?_, fun _ => rfl⟩, fun hne => absurd rfl hne⟩
    rcases hc with ⟨_, h⟩ | h
    · exact Or.inl h
    · exact Or.inr h
  · rw [if_neg hc]
    refine ⟨⟨fun h => GateResult.noConfusion h, fun hr => ?_⟩, fun _ => rfl⟩
    exfalso
    apply hc
    rcases hr with h | h
    · exact Or.inl ⟨by rw [h]; exact ht, h⟩
    · exact Or.inr h

/-- Witness for C2: a case-varied bearer presentation proceeds. -/
theorem auth_allow_iff_witness :
    withAuth (str ("sec")) (str ("/presign")) [] (str ("BeArEr sec"))
      = GateResult.proceed :=
  (auth_allow_iff (str ("sec")) (str ("/presign")) [] (str ("BeArEr sec"))
      (by decide) (by decide)).1.mpr (Or.inr (by decide))

/-- C3 counterexample: a negative component yields the very same empty
sentinel as the all-zero case, and the handler's resolution step silently
substitutes the 15-minute default for it instead of surfacing a validation
error — refuting the claim at days = -1, hours = 0, minutes = 0. -/
theorem expire_negative_counterexample :
    resolveExpire (-1) 0 0 = str ("15m")
      ∧ resolveExpire 0 0 0 = str ("15m")
      ∧ buildExpire (-1) 0 0 = buildExpire 0 0 0 := by
  decide

/-- C3 amended: for every input with a negative component, the formatter
returns the empty sentinel — indistinguishable from the all-zero case — and
the caller silently applies the fixed 15-minute default rather than
surfacing a validation error. -/
theorem expire_negative_silently_defaults (d h m : Int)
    (hneg : d < 0 ∨ h < 0 ∨ m < 0) :
    buildExpire d h m = [] ∧ resolveExpire d h m = str ("15m")  := by
  have hb : buildExpire d h m = [] := by
    unfold buildExpire
    rw [if_pos hneg]
  refine ⟨hb, ?_⟩
  unfold resolveExpire
  rw [if_pos hb]

/-- Witness for the amended C3 at a concrete negative input. -/
theorem expire_negative_silently_defaults_witness :
    buildExpire (-1) 0 0 = [] ∧ resolveExpire (-1) 0 0 = str ("15m") :=
  expire_negative_silently_defaults (-1) 0 0 (Or.inl (by decide))

/-- C5: for every non-negative, not-all-zero triple the formatter output is
exactly the spec's concatenation of the non-zero components in the fixed
order d, h, m; the listed concrete cases evaluate exactly as claimed, and
the all-zero sentinel resolves to the 15-minute default at the caller. -/
theorem buildExpire_matches_spec_format :
    (∀ d h m : Int, 0 ≤ d → 0 ≤ h → 0 ≤ m → ¬(d = 0 ∧ h = 0 ∧ m = 0) →
        buildExpire d h m = expireSpecFormat d h m)
      ∧ buildExpire 2 3 15 = str ("2d3h15m")
      ∧ buildExpire 0 3 0 = str ("3h")
      ∧ resolveExpire 0 0 0 = str ("15m") := by
  refine ⟨?_, by decide, by decide, by decide⟩
  intro d h m hd hh hm hnz
  unfold buildExpire expireSpecFormat
  rw [if_neg (by omega : ¬(d < 0 ∨ h < 0 ∨ m < 0)), if_neg hnz]
  simp only [(show d > 0 ↔ d ≠ 0 by omega), (show h > 0 ↔ h ≠ 0 by omega),
    (show m > 0 ↔ m ≠ 0 by omega)]

/-- Witness for C5 at (2, 3, 15). -/
theorem buildExpire_matches_spec_format_witness :
    buildExpire 2 3 15 = expireSpecFormat 2 3 15 :=
  buildExpire_matches_spec_format.1 2 3 15 (by decide) (by decide) (by decide)
    (by decide)

/-- C8: for every invocation outcome, a deadline overrun responds 504 with
the fixed timeout message (no partial output in the body); otherwise a
non-zero exit responds 400 with the trimmed captured output, or the
process-level error message when the captured output trims to empty; and
extraction is reached exactly when the deadline held and the exit status
was zero. -/
theorem classifyToolRun_outcomes (run : ToolRun) :
    (run.deadlineExceeded = true →
        classifyToolRun run = HandlerStep.respond 504 (str ("mc command timed out")))
      ∧ (∀ e, run.deadlineExceeded = false → run.exitErr = some e →
          classifyToolRun run
            = HandlerStep.respond 400
                (if trimSpace run.output = [] then e else trimSpace run.output))
      ∧ (classifyToolRun run = HandlerStep.extract run.output
          ↔ (run.deadlineExceeded = false ∧ run.exitErr = none)) := by
  obtain ⟨d, ee, out⟩ := run
  refine ⟨?_, ?_, ?_⟩
  · intro hd
    have hd' : d = true := hd
    subst hd'
    simp [classifyToolRun]
  · intro e hd he
    have hd' : d = false := hd
    have he' : ee = some e := he
    subst hd'
    subst he'
    simp [classifyToolRun]
  · cases d <;> cases ee <;> simp [classifyToolRun]

/-- Witness for C8: a timed-out run maps to the 504 response. -/
theorem classifyToolRun_outcomes_witness :
    classifyToolRun ⟨true, none, str ("partial out")⟩
      = HandlerStep.respond 504 (str ("mc command timed out")) :=
  (classifyToolRun_outcomes ⟨true, none, str ("partial out")⟩).1 rfl

/-- The first character of an append comes from a non-empty left part. -/
theorem headIs_append_left (c : Char) (x y : List Char) (hx : x ≠ []) :
    headIs c (x ++ y) = headIs c x := by
  cases x with
  | nil => exact absurd rfl hx
  | cons a t => rfl

/-- The last character of an append comes from a non-empty right part. -/
theorem lastIs_append_right (c : Char) (x y : List Char) (hy : y ≠ []) :
    lastIs c (x ++ y) = lastIs c y := by
  unfold lastIs
  rw [List.reverse_append]
  exact headIs_append_left c y.reverse x.reverse (by simpa using hy)

/-- A list starting with a separator is not empty. -/
theorem slash_append_ne_nil (w : List Char) : str ("/") ++ w ≠ [] :=
  fun hc => List.noConfusion hc

/-- C4 counterexample: with folder empty and key `//x` — non-empty after
whitespace trimming, so validation accepts it — the object path is `/x`,
which has a leading separator; and with folder `a` and key `/` the object
path is `a/`, which has a trailing separator. The claimed property fails
because only one leading and one trailing separator is stripped per
segment. -/
theorem joinObjectPath_counterexample :
    trimSpace (str ("//x")) ≠ []
      ∧ joinObjectPath [] (str ("//x")) = str ("/x")
      ∧ headIs ('/') (joinObjectPath [] (str ("//x"))) = true
      ∧ trimSpace (str ("/")) ≠ []
      ∧ joinObjectPath (str ("a")) (str ("/")) = str ("a/")
      ∧ lastIs ('/') (joinObjectPath (str ("a")) (str ("/"))) = true := by
  decide

/-- C4 amended: whenever the cleaned key segment is non-empty and neither
cleaned segment still begins or ends with a separator (which holds exactly
when the trimmed inputs carry at most one separator at each end), the
object path has no leading or trailing separator, and when the cleaned
folder is non-empty the path is exactly folder, one separator, key. -/
theorem joinObjectPath_clean_segments (folder key : List Char)
    (hk : cleanSeg key ≠ [])
    (hk1 : headIs ('/') (cleanSeg key) = false)
    (hk2 : lastIs ('/') (cleanSeg key) = false)
    (hf1 : headIs ('/') (cleanSeg folder) = false)
    (_hf2 : lastIs ('/') (cleanSeg folder) = false) :
    headIs ('/') (joinObjectPath folder key) = false
      ∧ lastIs ('/') (joinObjectPath folder key) = false
      ∧ (cleanSeg folder ≠ [] →
          joinObjectPath folder key
            = cleanSeg folder ++ (str ("/") ++ cleanSeg key)) := by
  by_cases hf : cleanSeg folder = []
  · unfold joinObjectPath
    rw [if_pos hf]
    exact ⟨hk1, hk2, fun hne => absurd hf hne⟩
  · unfold joinObjectPath
    rw [if_neg hf]
    refine ⟨?_, ?_, fun _ => rfl⟩
    · rw [headIs_append_left ('/') _ _ hf]
      exact hf1
    · rw [lastIs_append_right ('/') (cleanSeg folder) _ (slash_append_ne_nil _),
        lastIs_append_right ('/') (str ("/")) (cleanSeg key) hk]
      exact hk2

/-- Witness for the amended C4 at folder `a`, key `b`. -/
theorem joinObjectPath_clean_segments_witness :
    headIs ('/') (joinObjectPath (str ("a")) (str ("b"))) = false
      ∧ lastIs ('/') (joinObjectPath (str ("a")) (str ("b"))) = false
      ∧ (cleanSeg (str ("a")) ≠ [] →
          joinObjectPath (str ("a")) (str ("b"))
            = cleanSeg (str ("a")) ++ (str ("/") ++ cleanSeg (str ("b")))) :=
  joinObjectPath_clean_segments (str ("a")) (str ("b"))
    (by decide) (by decide) (by decide) (by decide) (by decide)

/-- C10 counterexample: the key `///` consists only of separator characters
after whitespace trimming and passes validation, yet the object path
builder returns `/`, not the empty string — only one separator is stripped
at each end — refuting the claim's universally quantified part. -/
theorem sep_only_key_counterexample :
    (str ("///")).all (fun c => c == ('/')) = true
      ∧ trimSpace (str ("///")) ≠ []
      ∧ joinObjectPath [] (str ("///")) = str ("/")
      ∧ joinObjectPath [] (str ("///")) ≠ [] := by
  decide

/-- C10 amended: there are requests that pass validation with an empty
object path — for every key whose whitespace-trimmed form is `/` or `//`
(with folder empty), the key is non-empty after trimming so validation
accepts it, the object path builder returns the empty string, and the
signing target therefore ends in a trailing separator; the success
response's object field is that empty path. -/
theorem empty_object_path_exists (key aliasName bucket : List Char)
    (hkey : trimSpace key = str ("/") ∨ trimSpace key = str ("//")) :
    trimSpace key ≠ []
      ∧ joinObjectPath [] (trimSpace key) = []
      ∧ lastIs ('/')
          (signingTarget aliasName bucket (joinObjectPath [] (trimSpace key)))
          = true := by
  have hclean : cleanSeg (trimSpace key) = [] := by
    rcases hkey with h | h <;> rw [h] <;> decide
  have hjoin : joinObjectPath [] (trimSpace key) = [] := by
    unfold joinObjectPath
    rw [if_pos (by decide : cleanSeg ([] : List Char) = [])]
    exact hclean
  refine ⟨?_, hjoin, ?_⟩
  · rcases hkey with h | h <;> rw [h] <;> decide
  · rw [hjoin]
    unfold signingTarget
    rw [lastIs_append_right ('/') aliasName _ (slash_append_ne_nil _),
      lastIs_append_right ('/') (str ("/")) _
        (fun hc => slash_append_ne_nil [] (List.append_eq_nil.mp hc).2),
      lastIs_append_right ('/') bucket _ (slash_append_ne_nil _)]
    decide

/-- Witness for the amended C10 at key `/`. -/
theorem empty_object_path_exists_witness :
    trimSpace (str ("/")) ≠ []
      ∧ joinObjectPath [] (trimSpace (str ("/"))) = []
      ∧ lastIs ('/')
          (signingTarget (str ("myminio")) (str ("b"))
            (joinObjectPath [] (trimSpace (str ("/")))))
          = true :=
  empty_object_path_exists (str ("/")) (str ("myminio")) (str ("b"))
    (Or.inl (by decide))

/-- The loop of extractShareURL is decided by the first line whose trimmed
form starts with the marker. -/
theorem scanShare_eq_find (ls : List (List Char)) :
    scanShare ls =
      match ls.find? (fun l => shareMarker.isPrefixOf (trimSpace l)) with
      | none => Except.error (str ("could not find Share: line in mc output"))
      | some l =>
        if trimSpace (trimLeading shareMarker (trimSpace l)) = [] then
          Except.error (str ("Share line present but empty"))
        else Except.ok (trimSpace (trimLeading shareMarker (trimSpace l))) := by
  induction ls with
  | nil => rfl
  | cons l rest ih =>
    by_cases hp : shareMarker.isPrefixOf (trimSpace l) = true
    · simp only [scanShare]
      rw [if_pos hp,
        @List.find?_cons_of_pos (List Char)
          (fun l => shareMarker.isPrefixOf (trimSpace l)) l rest hp]
    · simp only [scanShare]
      rw [if_neg hp,
        @List.find?_cons_of_neg (List Char)
          (fun l => shareMarker.isPrefixOf (trimSpace l)) l rest hp]
      exact ih

/-- C6: the extractor returns exactly what the first line beginning (after
per-line trimming) with the `Share:` marker yields — the trimmed remainder
of that line — and fails exactly when no such line exists (no-Share-line
error) or when the first matched line's remainder is empty; on output
containing the line `Share: https://x.example/obj?sig=abc` it returns
exactly that URL. -/
theorem extractShareURL_line_anchored :
    (∀ out : List Char,
        extractShareURL out =
          match (splitLines out).find? (fun l => shareMarker.isPrefixOf (trimSpace l)) with
          | none => Except.error (str ("could not find Share: line in mc output"))
          | some l =>
            if trimSpace (trimLeading shareMarker (trimSpace l)) = [] then
              Except.error (str ("Share line present but empty"))
            else Except.ok (trimSpace (trimLeading shareMarker (trimSpace l))))
      ∧ extractShareURL
          (str ("mc: sharing") ++ ([Char.ofNat 10]
            ++ (str ("Share: https://x.example/obj?sig=abc") ++ [Char.ofNat 10])))
          = Except.ok (str ("https://x.example/obj?sig=abc"))
      ∧ (∀ out : List Char,
          (∀ l ∈ splitLines out, shareMarker.isPrefixOf (trimSpace l) = false) →
          extractShareURL out
            = Except.error (str ("could not find Share: line in mc output"))) := by
  refine ⟨fun out => scanShare_eq_find (splitLines out), by rfl, ?_⟩
  intro out hnone
  have hfind :
      (splitLines out).find? (fun l => shareMarker.isPrefixOf (trimSpace l)) = none := by
    rw [List.find?_eq_none]
    intro l hl
    rw [hnone l hl]
    exact Bool.false_ne_true
  have h := scanShare_eq_find (splitLines out)
  rw [hfind] at h
  exact h

/-- Witness for C6: output with no marker line yields the no-Share-line
error. -/
theorem extractShareURL_line_anchored_witness :
    extractShareURL (str ("no url here"))
      = Except.error (str ("could not find Share: line in mc output")) :=
  extractShareURL_line_anchored.2.2 (str ("no url here")) (by decide)

/-- Every list is a prefix of itself (boolean form). -/
theorem isPrefixOf_self (l : List Char) : l.isPrefixOf l = true := by
  induction l with
  | nil => rfl
  | cons c t ih => simp [List.isPrefixOf, ih]

/-- A list contains any of its suffixes as a substring. -/
theorem containsSub_append (p s : List Char) : containsSub s (p ++ s) = true := by
  induction p with
  | nil =>
    cases s with
    | nil => rfl
    | cons c cs => simp [containsSub, isPrefixOf_self]
  | cons c p' ih => simp [containsSub, ih]

/-- C9 counterexample: when the tool exits successfully with output
`garbage` (from which no URL can be extracted), the pattern-extraction
variant responds 500 with a fixed message that does not include the raw
tool output — refuting the claim that both variants include the output for
diagnosis. -/
theorem pattern_parse_error_counterexample :
    patternVariantParse (str ("garbage"))
        = Except.error (500, str ("could not extract URL from mc output"))
      ∧ containsSub (str ("garbage"))
          (str ("could not extract URL from mc output")) = false :=
  ⟨rfl, by decide⟩

/-- C9 amended: on a successful exit whose output yields no URL, the
line-anchored variant responds 400 with a body that includes the raw
(trimmed) tool output, while the pattern-extraction variant responds 500
with a fixed message that does not carry the output. -/
theorem parse_failure_responses (out : List Char) :
    (∀ e, extractShareURL out = Except.error e →
        lineVariantParse out
            = Except.error
                (400, str ("could not parse Share URL. mc output: ") ++ trimSpace out)
          ∧ containsSub (trimSpace out)
              (str ("could not parse Share URL. mc output: ") ++ trimSpace out)
              = true)
      ∧ (∀ e, extractFirstURL out = Except.error e →
          patternVariantParse out
            = Except.error (500, str ("could not extract URL from mc output"))) := by
  constructor
  · intro e he
    refine ⟨?_, containsSub_append _ _⟩
    simp [lineVariantParse, he]
  · intro e he
    simp [patternVariantParse, he]

/-- Witness for the amended C9 at the output `zz`. -/
theorem parse_failure_responses_witness :
    lineVariantParse (str ("zz"))
        = Except.error
            (400, str ("could not parse Share URL. mc output: ") ++ trimSpace (str ("zz")))
      ∧ containsSub (trimSpace (str ("zz")))
          (str ("could not parse Share URL. mc output: ") ++ trimSpace (str ("zz")))
          = true :=
  (parse_failure_responses (str ("zz"))).1
    (str ("could not find Share: line in mc output")) rfl

/-- Serialization of a hierarchical URL with non-empty scheme and host:
scheme, `://`, host, then path, query and fragment verbatim. -/
theorem urlString_hier (s h p q f : List Char) (om : Bool)
    (hs : s ≠ []) (hh : h ≠ []) (hp : p = [] ∨ headIs ('/') p = true) :
    urlString ⟨s, [], h, p, q, f, om⟩
      = s ++ (str ("://") ++ (h ++ (p
          ++ ((if q = [] then [] else str ("?") ++ q)
          ++ (if f = [] then [] else str ("#") ++ f))))) := by
  have hsf : slashFix h p = [] := by
    unfold slashFix
    refine if_neg ?_
    intro hc
    rcases hp with h1 | h1
    · exact hc.1 h1
    · exact Bool.noConfusion (h1.symm.trans hc.2.1)
  have hhs : hostSection s h p om = str ("//") ++ h := by
    unfold hostSection
    rw [if_neg (fun hc => hs hc.1), if_neg (fun hc => hh hc.2),
      if_neg (fun hc => hh hc.1)]
  simp only [urlString]
  rw [if_neg hs, if_pos trivial, hhs, hsf, List.nil_append]
  simp only [List.append_assoc]
  rfl

/-- C7: the rewriter is the identity when no public base is configured
(empty after trimming) or when either the generated URL or the base fails
to parse; when both parse it re-serializes the generated URL with only its
scheme and host replaced by those of the base, so for a hierarchical URL
the path, query and fragment are preserved verbatim after the base's
scheme://host; and the concrete example rewrites exactly as claimed. -/
theorem rewritePublicBase_frame :
    (∀ u base : List Char, trimSpace base = [] → rewritePublicBase base u = u)
      ∧ (∀ u base : List Char, parseURL u = none → rewritePublicBase base u = u)
      ∧ (∀ u base : List Char, parseURL (trimSpace base) = none →
          rewritePublicBase base u = u)
      ∧ (∀ u base : List Char, ∀ pu pb : GoURL, trimSpace base ≠ [] →
          parseURL u = some pu → parseURL (trimSpace base) = some pb →
          rewritePublicBase base u
              = urlString { pu with scheme := pb.scheme, host := pb.host }
            ∧ (pu.opaquePart = [] → pb.scheme ≠ [] → pb.host ≠ [] →
                (pu.path = [] ∨ headIs ('/') pu.path = true) →
                rewritePublicBase base u
                  = pb.scheme ++ (str ("://") ++ (pb.host ++ (pu.path
                      ++ ((if pu.rawQuery = [] then []
                           else str ("?") ++ pu.rawQuery)
                      ++ (if pu.fragment = [] then []
                           else str ("#") ++ pu.fragment)))))))
      ∧ rewritePublicBase (str ("https://public.example"))
            (str ("http://internal:9000/bucket/key?X=1"))
          = str ("https://public.example/bucket/key?X=1") := by
  refine ⟨?_, ?_, ?_, ?_, by decide⟩
  · intro u base hb
    unfold rewritePublicBase
    rw [if_pos hb]
  · intro u base hu
    by_cases hb : trimSpace base = []
    · unfold rewritePublicBase
      rw [if_pos hb]
    · simp [rewritePublicBase, hb, hu]
  · intro u base hpb
    by_cases hb : trimSpace base = []
    · unfold rewritePublicBase
      rw [if_pos hb]
    · cases hu : parseURL u with
      | none => simp [rewritePublicBase, hb, hu]
      | some pu => simp [rewritePublicBase, hb, hu, hpb]
  · intro u base pu pb hb hu hpb
    have h4a : rewritePublicBase base u
        = urlString { pu with scheme := pb.scheme, host := pb.host } := by
      simp [rewritePublicBase, hb, hu, hpb]
    refine ⟨h4a, ?_⟩
    intro hop hs hh hpath
    obtain ⟨ps, po, ph, pp, pq, pf, pom⟩ := pu
    obtain ⟨qs, qo, qh, qp, qq, qf, qom⟩ := pb
    have hop' : po = [] := hop
    subst hop'
    rw [h4a]
    exact urlString_hier qs qh pp pq pf pom hs hh hpath

/-- Witness for C7: with an unconfigured (whitespace-only) base, the URL is
returned unchanged. -/
theorem rewritePublicBase_frame_witness :
    rewritePublicBase (str (" ")) (str ("http://a/b")) = str ("http://a/b") :=
  rewritePublicBase_frame.1 (str ("http://a/b")) (str (" ")) (by decide)
